import Mathlib

/-!
Verification development for the `fsButler` module: a butler that resolves
dataset identifiers by scanning a repository directory tree and assembles
(fetches, augments, filters, concatenates) the matching catalogs.

The definitions below are a shallow embedding of `fsButler/fsButler.py`.
Directory trees are modelled by explicit list-based structures, Python
keyword arguments defaulting to `None` by `Option` values (with Python
truthiness modelled explicitly, so `0` and `""` count as unsupplied in
`if arg:` tests), the external catalog store by a pair of functions
(existence check and typed get), and Python exceptions by `Except`.
Diagnostic `print` warnings are modelled as an extra returned list of
warned filenames where a claim needs them.
-/

set_option autoImplicit false

namespace FsButler

/-- Python truthiness of an optional string keyword argument: `None` and the
empty string are falsy, every other string is truthy. -/
def pyTruthyStr : Option String → Bool
  | none => false
  | some s => !s.isEmpty

/-- Python truthiness of an optional integer keyword argument: `None` and `0`
are falsy, every other integer is truthy. -/
def pyTruthyInt : Option Int → Bool
  | none => false
  | some n => n != 0

/-- Python `str.isdigit` on ASCII directory names: nonempty and all
characters are decimal digits. -/
def pyIsdigit (s : String) : Bool :=
  !s.isEmpty && s.toList.all Char.isDigit

/-- Numeric value of a run of decimal digit characters, as Python `int` on a
regex group matched by `[0-9]+`. -/
def digitsToNat (cs : List Char) : Nat :=
  cs.foldl (fun a c => 10 * a + (c.toNat - 48)) 0

/-- Python `re.match(r"^SRC-", o)`: the filename starts with `SRC-`. -/
def startsWithSRC (s : String) : Bool :=
  s.toList.take 4 == ['S', 'R', 'C', '-']

/-- Python `re.match(r"^SRC-([0-9]{7})-([0-9]{3}).fits", o)`, returning the
two captured groups as numbers. The `.` in the source pattern is an
unescaped regex dot (it matches any character except a newline), and
`re.match` anchors only at the start of the string, so arbitrary trailing
characters after `fits` are accepted. -/
def srcMatch? (s : String) : Option (Nat × Nat) :=
  let cs := s.toList
  if 20 ≤ cs.length
      && cs.take 4 == ['S', 'R', 'C', '-']
      && ((cs.drop 4).take 7).all Char.isDigit
      && (cs.drop 11).take 1 == ['-']
      && ((cs.drop 12).take 3).all Char.isDigit
      && (cs.drop 15).take 1 != ['\n']
      && (cs.drop 16).take 4 == ['f', 'i', 't', 's']
  then some (digitsToNat ((cs.drop 4).take 7), digitsToNat ((cs.drop 12).take 3))
  else none

/-- Contents of one filter subdirectory of a pointing directory: its name and
the list of filenames found in its `output` subdirectory (which is assumed to
exist, as the code lists it unconditionally). -/
structure FilterDir where
  name : String
  output : List String
  deriving Repr, DecidableEq

/-- Contents of one entry of the repository root as seen by the exposure
resolver: a directory name (the code keeps only all-digit names) and its
filter subdirectories. -/
structure PointingDir where
  name : String
  filters : List FilterDir
  deriving Repr, DecidableEq

/-- Contents of one tract subdirectory of a coadd filter directory: its name
and the names of its patch subdirectories. -/
structure TractDir where
  name : String
  patches : List String
  deriving Repr, DecidableEq

/-- Contents of one filter subdirectory of `deepCoadd-results`. -/
structure FilterCoaddDir where
  name : String
  tracts : List TractDir
  deriving Repr, DecidableEq

/-- Repository root: the entries scanned by the exposure resolver, and the
contents of the `deepCoadd-results` directory scanned by the coadd resolver
(the directory itself is modelled as present). -/
structure DataRoot where
  pointings : List PointingDir
  coaddResults : List FilterCoaddDir
  deriving Repr, DecidableEq

/-- Exposure-family data id: `{'filter': ..., 'visit': ..., 'ccd': ...}`. -/
structure ExpId where
  filter : String
  visit : Int
  ccd : Int
  deriving Repr, DecidableEq

/-- Coadd-family data id: `{'filter': ..., 'tract': ..., 'patch': ...}`. -/
structure CoaddId where
  filter : String
  tract : Int
  patch : String
  deriving Repr, DecidableEq

/-- A data id of either family. -/
inductive DataId where
  | exp (e : ExpId)
  | coadd (c : CoaddId)
  deriving Repr, DecidableEq

/-- Python exceptions the embedded code can raise. `unsupportedType` is the
`ValueError("Data type ... is not implemented")` raised by `getIds`;
`valueError` covers `int()` parse failures and `ValueError("Unkown
dataType")`; `osError` is `os.listdir` on a missing path; `typeError` is
`os.path.join` on a non-string and `extend` on a non-catalog; `storeError`
is a failing `butler.get`; `attributeError` is a method call on an object
that does not support it. -/
inductive PyErr where
  | unsupportedType (t : String)
  | osError
  | typeError
  | valueError
  | indexError
  | storeError
  | attributeError
  deriving Repr, DecidableEq

/-- The four-way `if/elif` chain at the end of the `singleExpIds` file loop:
an id decoded as `(visitNumber, ccdNumber)` is appended when each supplied
(non-`None`) constraint is matched exactly. -/
def keepQ (visitq ccdq : Option Int) (v c : Nat) : Bool :=
  match visitq, ccdq with
  | none, none => true
  | some vv, none => (v : Int) == vv
  | none, some cc => (c : Int) == cc
  | some vv, some cc => ((v : Int) == vv) && ((c : Int) == cc)

/-- Inner loop of `singleExpIds` over the filenames of one `output`
directory. Returns the data ids appended (in file order) and the filenames
warned about (those that start with `SRC-` but fail the full pattern, which
are skipped without aborting the scan). -/
def expScanFiles (fname : String) (visitq ccdq : Option Int) :
    List String → List ExpId × List String
  | [] => ([], [])
  | o :: rest =>
    let acc := expScanFiles fname visitq ccdq rest
    if startsWithSRC o then
      match srcMatch? o with
      | none => (acc.1, o :: acc.2)
      | some (v, c) =>
        if keepQ visitq ccdq v c then (⟨fname, (v : Int), (c : Int)⟩ :: acc.1, acc.2)
        else acc
    else acc

/-- Loop of `singleExpIds` over the filter directories selected for one
pointing directory. -/
def expScanFilterDirs (visitq ccdq : Option Int) :
    List FilterDir → List ExpId × List String
  | [] => ([], [])
  | fd :: rest =>
    let here := expScanFiles fd.name visitq ccdq fd.output
    let acc := expScanFilterDirs visitq ccdq rest
    (here.1 ++ acc.1, here.2 ++ acc.2)

/-- Body of `singleExpIds` for one pointing directory: if a filter was
supplied (and is truthy) the pointing is scanned only when that filter
subdirectory exists, otherwise all its children are scanned. -/
def expScanPointing (filterq : Option String) (visitq ccdq : Option Int)
    (p : PointingDir) : List ExpId × List String :=
  let dirFilters : List FilterDir :=
    if pyTruthyStr filterq then
      match p.filters.find? (fun fd => fd.name == filterq.getD "") with
      | some fd => [fd]
      | none => []
    else p.filters
  expScanFilterDirs visitq ccdq dirFilters

/-- Loop of `singleExpIds` over the digit-named pointing directories. -/
def expScanPointings (filterq : Option String) (visitq ccdq : Option Int) :
    List PointingDir → List ExpId × List String
  | [] => ([], [])
  | p :: rest =>
    let here := expScanPointing filterq visitq ccdq p
    let acc := expScanPointings filterq visitq ccdq rest
    (here.1 ++ acc.1, here.2 ++ acc.2)

/-- Model of `fsButler.singleExpIds`, additionally returning the list of
filenames it printed warnings for. The guard `if filter and visit and ccd:`
uses Python truthiness, so `0` and the empty string do not short-circuit. -/
def singleExpIdsFull (root : DataRoot) (filterq : Option String)
    (visitq ccdq : Option Int) : List ExpId × List String :=
  if pyTruthyStr filterq && pyTruthyInt visitq && pyTruthyInt ccdq then
    ([⟨filterq.getD "", visitq.getD 0, ccdq.getD 0⟩], [])
  else
    expScanPointings filterq visitq ccdq
      (root.pointings.filter (fun p => pyIsdigit p.name))

/-- Model of `fsButler.singleExpIds` (the returned `dataIds` list). -/
def singleExpIds (root : DataRoot) (filterq : Option String)
    (visitq ccdq : Option Int) : List ExpId :=
  (singleExpIdsFull root filterq visitq ccdq).1

/-- Python `int(s)` on a directory-name string: optional leading minus sign
followed by at least one decimal digit, else a `ValueError` (`none`). -/
def pyInt? (s : String) : Option Int :=
  match s.toList with
  | [] => none
  | '-' :: rest =>
    if !rest.isEmpty && rest.all Char.isDigit
    then some (-(digitsToNat rest : Int)) else none
  | cs => if cs.all Char.isDigit then some (digitsToNat cs : Int) else none

/-- Innermost loop of `deepCoaddIds`: append one id per patch. The code
evaluates `int(t)` on the tract directory name at each append, raising
`ValueError` when the name is not numeric. -/
def coaddAppendPatches (f tname : String) : List String → Except PyErr (List CoaddId)
  | [] => Except.ok []
  | p :: rest =>
    match pyInt? tname with
    | none => Except.error PyErr.valueError
    | some n => do
      let l ← coaddAppendPatches f tname rest
      Except.ok (⟨f, n, p⟩ :: l)

/-- Body of `deepCoaddIds` for one tract directory: if a patch was supplied
(and is truthy) only that patch is used without listing the directory,
otherwise the patch subdirectories are enumerated. -/
def coaddTractIds (f : String) (patchq : Option String) (td : TractDir) :
    Except PyErr (List CoaddId) :=
  coaddAppendPatches f td.name
    (if pyTruthyStr patchq then [patchq.getD ""] else td.patches)

/-- Loop of `deepCoaddIds` over the tract directories of one filter. -/
def coaddTractDirs (f : String) (patchq : Option String) :
    List TractDir → Except PyErr (List CoaddId)
  | [] => Except.ok []
  | td :: rest => do
    let a ← coaddTractIds f patchq td
    let b ← coaddTractDirs f patchq rest
    Except.ok (a ++ b)

/-- Body of `deepCoaddIds` for one filter name. When a tract was supplied
(and is truthy) the code reaches `os.path.join(filterPath, tract)` with an
integer argument, which raises before any id is produced; otherwise the
filter directory is listed (`OSError` when it does not exist). -/
def coaddFilterIds (root : DataRoot) (tractq : Option Int)
    (patchq : Option String) (f : String) : Except PyErr (List CoaddId) :=
  if pyTruthyInt tractq then Except.error PyErr.typeError
  else
    match root.coaddResults.find? (fun fd => fd.name == f) with
    | none => Except.error PyErr.osError
    | some fd => coaddTractDirs f patchq fd.tracts

/-- Loop of `deepCoaddIds` over the selected filter names. -/
def coaddFilters (root : DataRoot) (tractq : Option Int)
    (patchq : Option String) : List String → Except PyErr (List CoaddId)
  | [] => Except.ok []
  | f :: rest => do
    let a ← coaddFilterIds root tractq patchq f
    let b ← coaddFilters root tractq patchq rest
    Except.ok (a ++ b)

/-- Model of `fsButler.deepCoaddIds`. The guard `if filter and tract and
patch:` uses Python truthiness, so `0` and the empty string do not
short-circuit. -/
def deepCoaddIds (root : DataRoot) (filterq : Option String)
    (tractq : Option Int) (patchq : Option String) : Except PyErr (List CoaddId) :=
  if pyTruthyStr filterq && pyTruthyInt tractq && pyTruthyStr patchq then
    Except.ok [⟨filterq.getD "", tractq.getD 0, patchq.getD ""⟩]
  else
    coaddFilters root tractq patchq
      (if pyTruthyStr filterq then [filterq.getD ""]
       else root.coaddResults.map (fun fd => fd.name))

/-- Partial data id as passed through `**dataId` keyword arguments. Only the
keys of the family matching the requested data type are forwarded by the
dispatch (passing a key of the other family would raise a `TypeError` in
Python; calls in this development always use family-appropriate keys, so
that path is not modelled). -/
structure PartialKey where
  filter : Option String := none
  visit : Option Int := none
  ccd : Option Int := none
  tract : Option Int := none
  patch : Option String := none
  deriving Repr, DecidableEq

/-- Model of `fsButler.getIds`: dispatch on the data type string, raising
`ValueError("Data type ... is not implemented")` for unrecognized types. -/
def getIds (root : DataRoot) (dataType : String) (key : PartialKey) :
    Except PyErr (List DataId) :=
  if dataType == "src" || dataType == "calexp_md" then
    Except.ok ((singleExpIds root key.filter key.visit key.ccd).map DataId.exp)
  else if dataType == "deepCoadd" || dataType == "deepCoadd_src"
      || dataType == "deepCoadd_calexp_md" then
    (deepCoaddIds root key.filter key.tract key.patch).map
      (fun l => l.map DataId.coadd)
  else
    Except.error (PyErr.unsupportedType dataType)

/-- Point-spread function object: `computeShape().getDeterminantRadius()`
gives the dataset-level default shape radius, `computeShape(pos)` the
per-position one, which may raise (`none`). Radii are abstract values,
modelled as integers. -/
structure Psf where
  shapeAvg : Int
  shapeAt : Int × Int → Option Int

/-- Calibration facts carried by a calibration-metadata object or an
exposure: the point-spread function and `getFluxMag0()`. -/
structure CalibInfo where
  psf : Psf
  fluxMag0 : Int
  fluxMag0Err : Int

/-- One row of a source catalog: its centroid, an abstract payload standing
for all the schema-mapped fields, and the verdict the external
`utils.goodSources` quality predicate gives for this row. -/
structure SrcRecord where
  centroid : Int × Int
  payload : Int
  good : Bool
  deriving Repr, DecidableEq

/-- An object returned by the catalog store: a source catalog (the
record-oriented case), a calibration-metadata object, an exposure-like
image object, or an opaque non-catalog object. -/
inductive DataElement where
  | srcCat (records : List SrcRecord)
  | calMd (c : CalibInfo)
  | image (c : CalibInfo)
  | blob (tag : Int)

/-- External catalog store (`self.butler`): an existence check and a typed
get, both keyed by dataset type string and data id. A `none` from `get`
models a store-raised error. -/
structure Butler where
  dsExists : String → DataId → Bool
  get : String → DataId → Option DataElement

/-- Model of `fsButler._getCalexpType`. -/
def getCalexpType (dataType : String) : Except PyErr String :=
  if dataType == "src" then Except.ok "calexp_md"
  else if dataType == "deepCoadd_src" then Except.ok "deepCoadd_calexp_md"
  else if dataType == "calexp_md" || dataType == "deepCoadd_calexp_md" then
    Except.ok dataType
  else if dataType == "calexp" || dataType == "deepCoadd" then
    Except.ok dataType
  else Except.error PyErr.valueError

/-- Python `s[:-4]`: drop the last four characters (empty when the string
has at most four characters). This is the dataset type the fallback branch
of `_getZeroMagFlux` fetches (`'deepCoadd_src'[:-4] == 'deepCoadd'`, but
`'src'[:-4] == ''`). -/
def pyDropLast4 (s : String) : String :=
  (s.toList.take (s.toList.length - 4)).asString

/-- Model of `fsButler._getZeroMagFlux`: if the companion calibration
dataset exists it is fetched and read as metadata, otherwise the dataset of
type `dataType[:-4]` is fetched and read as an exposure. -/
def getZeroMagFlux (b : Butler) (dataType : String) (id : DataId) :
    Except PyErr CalibInfo := do
  let calexpType ← getCalexpType dataType
  if b.dsExists calexpType id then
    match b.get calexpType id with
    | some (DataElement.calMd c) => Except.ok c
    | some _ => Except.error PyErr.attributeError
    | none => Except.error PyErr.storeError
  else
    match b.get (pyDropLast4 dataType) id with
    | some (DataElement.image c) => Except.ok c
    | some _ => Except.error PyErr.attributeError
    | none => Except.error PyErr.storeError

/-- Modelled from the spec: the fallback branch of the calibration
retrieval as the specification words it — "falling back to deriving
calibration directly from the primary dataset when the dedicated
calibration-metadata product is unavailable". It fetches the primary
dataset type itself and reads the calibration facts off the fetched
object (failing when that object carries none, as a source catalog does).
The first branch is the same as in the code. -/
def getZeroMagFluxSpec (b : Butler) (dataType : String) (id : DataId) :
    Except PyErr CalibInfo := do
  let calexpType ← getCalexpType dataType
  if b.dsExists calexpType id then
    match b.get calexpType id with
    | some (DataElement.calMd c) => Except.ok c
    | some _ => Except.error PyErr.attributeError
    | none => Except.error PyErr.storeError
  else
    match b.get dataType id with
    | some (DataElement.image c) => Except.ok c
    | some (DataElement.calMd c) => Except.ok c
    | some _ => Except.error PyErr.attributeError
    | none => Except.error PyErr.storeError

/-- One row of the output table built by `fetchDataset`: the schema-mapped
payload and the optional auxiliary columns (`flux.zeromag` with its error,
and `seeing`). -/
structure OutRecord where
  payload : Int
  zeromag : Option (Int × Int)
  seeing : Option Int
  deriving Repr, DecidableEq

/-- External `utils.goodSources` quality predicate: the boolean sequence
parallel to the catalog rows (each row carries its own verdict). -/
def goodSources (records : List SrcRecord) : List Bool :=
  records.map (fun r => r.good)

/-- Construction of one output record from a retained input record: the
fields are copied through the schema mapper, then the requested auxiliary
columns are set. With `seeingAtPos` the per-position shape evaluation is
tried and the dataset-level default is substituted silently when it
raises. -/
def buildRow (wz ws sp : Bool) (calib : Option CalibInfo) (r : SrcRecord) :
    OutRecord :=
  { payload := r.payload
    zeromag := if wz then calib.map (fun c => (c.fluxMag0, c.fluxMag0Err)) else none
    seeing :=
      if ws then
        calib.map (fun c =>
          if sp then
            match c.psf.shapeAt r.centroid with
            | some s => s
            | none => c.psf.shapeAvg
          else c.psf.shapeAvg)
      else none }

/-- The record-oriented branch of `fetchDataset`: apply the quality
predicate, keep the retained records in input row order, and build one
output record per retained record. -/
def processCat (wz ws sp : Bool) (calib : Option CalibInfo)
    (records : List SrcRecord) : List OutRecord :=
  ((records.zip (goodSources records)).filter (fun rg => rg.2)).map
    (fun rg => buildRow wz ws sp calib rg.1)

/-- One element of the `dataset` accumulator of `fetchDataset`: either an
output catalog built from a source catalog, or a non-catalog element kept
unmodified. -/
inductive FetchedItem where
  | outCat (rows : List OutRecord)
  | raw (e : DataElement)

/-- Per-element processing of `fetchDataset`: source catalogs are rebuilt
into output catalogs, everything else is appended as is. -/
def processElement (wz ws sp : Bool) (calib : Option CalibInfo) :
    DataElement → FetchedItem
  | DataElement.srcCat records => FetchedItem.outCat (processCat wz ws sp calib records)
  | e => FetchedItem.raw e

/-- One step of `_concatenateCats`: `cat.extend(other, deep=False)`. The
append is shallow and extends the accumulated catalog; calling it on or
with a non-catalog raises. -/
def extendItem : FetchedItem → FetchedItem → Except PyErr FetchedItem
  | FetchedItem.outCat a, FetchedItem.outCat b => Except.ok (FetchedItem.outCat (a ++ b))
  | _, _ => Except.error PyErr.typeError

/-- Loop of `_concatenateCats` over `cats[1:]`. -/
def concatGo : FetchedItem → List FetchedItem → Except PyErr FetchedItem
  | c, [] => Except.ok c
  | c, x :: xs => do
    let c2 ← extendItem c x
    concatGo c2 xs

/-- Model of `_concatenateCats`: take `cats[0]` and extend it with each
subsequent catalog in order. -/
def concatenateCats : List FetchedItem → Except PyErr FetchedItem
  | [] => Except.error PyErr.indexError
  | c :: rest => concatGo c rest

/-- Main loop of `fetchDataset` over the resolved data ids: skip absent
ids with a warning, fetch the dataset, fetch calibration when an auxiliary
column was requested, and append the processed element. -/
def fetchLoop (b : Butler) (dataType : String) (wz ws sp : Bool) :
    List DataId → Except PyErr (List FetchedItem)
  | [] => Except.ok []
  | id :: rest =>
    if b.dsExists dataType id then
      match b.get dataType id with
      | none => Except.error PyErr.storeError
      | some e => do
        let calib : Option CalibInfo ←
          if wz || ws then (getZeroMagFlux b dataType id).map some
          else Except.ok none
        let items ← fetchLoop b dataType wz ws sp rest
        Except.ok (processElement wz ws sp calib e :: items)
    else fetchLoop b dataType wz ws sp rest

/-- Model of `fsButler.fetchDataset`: resolve the ids, accumulate the
per-id results, and return `none` when nothing was accumulated, the single
element directly when exactly one was, and the concatenation otherwise. -/
def fetchDataset (root : DataRoot) (b : Butler) (dataType : String)
    (wz ws sp : Bool) (key : PartialKey) : Except PyErr (Option FetchedItem) := do
  let ids ← getIds root dataType key
  let dataset ← fetchLoop b dataType wz ws sp ids
  match dataset with
  | [] => Except.ok none
  | [x] => Except.ok (some x)
  | x :: y :: xs => (concatenateCats (x :: y :: xs)).map some

/-! ### Basic lemmas about the embedding -/

@[simp] theorem pyTruthyStr_none : pyTruthyStr none = false := rfl

@[simp] theorem pyTruthyStr_some (s : String) : pyTruthyStr (some s) = !s.isEmpty := rfl

@[simp] theorem pyTruthyInt_none : pyTruthyInt none = false := rfl

@[simp] theorem pyTruthyInt_some (n : Int) : pyTruthyInt (some n) = (n != 0) := rfl

@[simp] theorem except_bind_ok {α β : Type} (a : α) (f : α → Except PyErr β) :
    (Except.ok a >>= f) = f a := rfl

@[simp] theorem except_bind_error {α β : Type} (e : PyErr) (f : α → Except PyErr β) :
    ((Except.error e : Except PyErr α) >>= f) = Except.error e := rfl

@[simp] theorem except_map_ok {α β : Type} (f : α → β) (a : α) :
    (Except.ok a : Except PyErr α).map f = Except.ok (f a) := rfl

@[simp] theorem except_map_error {α β : Type} (f : α → β) (e : PyErr) :
    (Except.error e : Except PyErr α).map f = Except.error e := rfl

/-- The constraint test applied to a decoded id by the final four-way
`if/elif` of `singleExpIds`: a supplied (non-`None`) visit or ccd must be
matched exactly, an unsupplied one is unconstrained. -/
def matchesQ (vq cq : Option Int) (i : ExpId) : Bool :=
  match vq, cq with
  | none, none => true
  | some vv, none => i.visit == vv
  | none, some cc => i.ccd == cc
  | some vv, some cc => (i.visit == vv) && (i.ccd == cc)

theorem keepQ_eq_matchesQ (vq cq : Option Int) (fname : String) (v c : Nat) :
    keepQ vq cq v c = matchesQ vq cq ⟨fname, (v : Int), (c : Int)⟩ := by
  cases vq <;> cases cq <;> rfl

theorem expScanFiles_fst_filter (fname : String) (vq cq : Option Int)
    (files : List String) :
    (expScanFiles fname vq cq files).1 =
      ((expScanFiles fname none none files).1).filter (matchesQ vq cq) := by
  induction files with
  | nil => rfl
  | cons o rest ih =>
    simp only [expScanFiles]
    by_cases h1 : startsWithSRC o
    · simp only [h1, if_true]
      cases h2 : srcMatch? o with
      | none => simpa using ih
      | some vc =>
        obtain ⟨v, c⟩ := vc
        have hkeep0 : keepQ none none v c = true := rfl
        dsimp only
        rw [keepQ_eq_matchesQ vq cq fname v c, hkeep0]
        by_cases h3 : matchesQ vq cq ⟨fname, (v : Int), (c : Int)⟩ = true
        · simp [h3, List.filter_cons, ih]
        · simp only [Bool.not_eq_true] at h3
          simp [h3, List.filter_cons, ih]
    · simp only [Bool.not_eq_true] at h1
      simp only [h1, Bool.false_eq_true, if_false]
      exact ih

theorem expScanFilterDirs_fst_filter (vq cq : Option Int) (fds : List FilterDir) :
    (expScanFilterDirs vq cq fds).1 =
      ((expScanFilterDirs none none fds).1).filter (matchesQ vq cq) := by
  induction fds with
  | nil => rfl
  | cons fd rest ih =>
    simp only [expScanFilterDirs]
    rw [expScanFiles_fst_filter fd.name vq cq fd.output, ih, List.filter_append]

theorem expScanPointings_fst_filter (filterq : Option String) (vq cq : Option Int)
    (ps : List PointingDir) :
    (expScanPointings filterq vq cq ps).1 =
      ((expScanPointings filterq none none ps).1).filter (matchesQ vq cq) := by
  induction ps with
  | nil => rfl
  | cons p rest ih =>
    simp only [expScanPointings, expScanPointing]
    rw [expScanFilterDirs_fst_filter vq cq _, ih, List.filter_append]

theorem singleExpIds_filter_of_not_truthy (root : DataRoot) (filterq : Option String)
    (vq cq : Option Int) (h : pyTruthyInt vq = false ∨ pyTruthyInt cq = false) :
    singleExpIds root filterq vq cq =
      (singleExpIds root filterq none none).filter (matchesQ vq cq) := by
  have hcond : (pyTruthyStr filterq && pyTruthyInt vq && pyTruthyInt cq) = false := by
    rcases h with h | h <;> simp [h]
  have hcond0 :
      (pyTruthyStr filterq && pyTruthyInt none && pyTruthyInt none) = false := by simp
  simp only [singleExpIds, singleExpIdsFull, hcond, hcond0, Bool.false_eq_true, if_false]
  exact expScanPointings_fst_filter filterq vq cq _

theorem coaddFilterIds_tract_congr (root : DataRoot) (t1 t2 : Option Int)
    (patchq : Option String) (f : String) (h : pyTruthyInt t1 = pyTruthyInt t2) :
    coaddFilterIds root t1 patchq f = coaddFilterIds root t2 patchq f := by
  simp only [coaddFilterIds, h]

theorem coaddFilters_tract_congr (root : DataRoot) (t1 t2 : Option Int)
    (patchq : Option String) (fs : List String) (h : pyTruthyInt t1 = pyTruthyInt t2) :
    coaddFilters root t1 patchq fs = coaddFilters root t2 patchq fs := by
  induction fs with
  | nil => rfl
  | cons f rest ih =>
    simp only [coaddFilters, coaddFilterIds_tract_congr root t1 t2 patchq f h, ih]

/-! ### C9: supplying 0 for a numeric sub-field is treated as unsupplied by
the short-circuit -/

/-- C9: supplying the value 0 for a numeric sub-field is treated as
unsupplied by the all-fields-supplied short-circuit (Python truthiness).
`singleExpIds` with `visit=0` (or `ccd=0`) scans the filesystem and then
filters the decoded matches to the value 0 via the explicit
is-not-`None` four-way comparison, whereas `deepCoaddIds` with `tract=0`
behaves exactly as if `tract` had been omitted (no later filtering
restores the constraint). -/
theorem zero_treated_as_unsupplied :
    (∀ (root : DataRoot) (filterq : Option String) (cq : Option Int),
      singleExpIds root filterq (some 0) cq =
        (singleExpIds root filterq none none).filter (matchesQ (some 0) cq))
    ∧ (∀ (root : DataRoot) (filterq : Option String) (vq : Option Int),
      singleExpIds root filterq vq (some 0) =
        (singleExpIds root filterq none none).filter (matchesQ vq (some 0)))
    ∧ (∀ (root : DataRoot) (filterq patchq : Option String),
      deepCoaddIds root filterq (some 0) patchq =
        deepCoaddIds root filterq none patchq) := by
  refine ⟨?_, ?_, ?_⟩
  · intro root filterq cq
    exact singleExpIds_filter_of_not_truthy root filterq (some 0) cq (Or.inl (by simp))
  · intro root filterq vq
    exact singleExpIds_filter_of_not_truthy root filterq vq (some 0) (Or.inr (by simp))
  · intro root filterq patchq
    have hc1 : (pyTruthyStr filterq && pyTruthyInt (some 0) && pyTruthyStr patchq)
        = false := by simp
    have hc2 : (pyTruthyStr filterq && pyTruthyInt none && pyTruthyStr patchq)
        = false := by simp
    simp only [deepCoaddIds, hc1, hc2, Bool.false_eq_true, if_false]
    exact coaddFilters_tract_congr root (some 0) none patchq _ (by simp)

/-! ### C4: the unconstrained exposure scan is exactly the decodable
filenames, and malformed `SRC-` filenames are skipped non-fatally -/

theorem srcMatch?_eq_none_of_not_SRC (s : String) (h : startsWithSRC s = false) :
    srcMatch? s = none := by
  have h' : ¬(List.take 4 s.toList = ['S', 'R', 'C', '-']) := by
    simpa [startsWithSRC] using h
  simp only [srcMatch?]
  simp
  intro _ h2
  exact absurd h2 h'

theorem expScanFiles_none_fst (fname : String) (files : List String) :
    (expScanFiles fname none none files).1 =
      files.filterMap (fun o => (srcMatch? o).map
        (fun vc => (⟨fname, (vc.1 : Int), (vc.2 : Int)⟩ : ExpId))) := by
  induction files with
  | nil => rfl
  | cons o rest ih =>
    simp only [expScanFiles, List.filterMap_cons]
    by_cases h1 : startsWithSRC o
    · simp only [h1, if_true]
      cases h2 : srcMatch? o with
      | none => simpa [h2] using ih
      | some vc =>
        obtain ⟨v, c⟩ := vc
        have hk : keepQ none none v c = true := rfl
        simp [h2, hk, ih]
    · simp only [Bool.not_eq_true] at h1
      have h2 := srcMatch?_eq_none_of_not_SRC o h1
      simp [h1, h2, ih]

theorem expScanFilterDirs_fst_join (vq cq : Option Int) (fds : List FilterDir) :
    (expScanFilterDirs vq cq fds).1 =
      (fds.map (fun fd => (expScanFiles fd.name vq cq fd.output).1)).flatten := by
  induction fds with
  | nil => rfl
  | cons fd rest ih => simp [expScanFilterDirs, ih]

theorem expScanPointings_fst_join (filterq : Option String) (vq cq : Option Int)
    (ps : List PointingDir) :
    (expScanPointings filterq vq cq ps).1 =
      (ps.map (fun p => (expScanPointing filterq vq cq p).1)).flatten := by
  induction ps with
  | nil => rfl
  | cons p rest ih => simp [expScanPointings, ih]

/-- C4: for every repository tree, the exposure resolver (called without
constraints) returns identifiers whose filter/visit/detector triples are
exactly those decodable from filenames in the `output` directories that
match the source's `SRC-` filename pattern; and a filename starting with
`SRC-` that fails the full pattern is absent from the result, appears in
the printed diagnostics, and does not abort the enumeration of its sibling
files (the ids produced are the same as if the file were not there). -/
theorem singleExpIds_exact_scan :
    (∀ (root : DataRoot) (i : ExpId),
      i ∈ singleExpIds root none none none ↔
        ∃ p ∈ root.pointings, pyIsdigit p.name = true ∧
          ∃ fd ∈ p.filters, ∃ o ∈ fd.output, ∃ v c, srcMatch? o = some (v, c) ∧
            i = ⟨fd.name, (v : Int), (c : Int)⟩)
    ∧ (∀ (fname : String) (vq cq : Option Int) (pre suf : List String)
        (bad : String), startsWithSRC bad = true → srcMatch? bad = none →
        (expScanFiles fname vq cq (pre ++ bad :: suf)).1 =
          (expScanFiles fname vq cq (pre ++ suf)).1
        ∧ bad ∈ (expScanFiles fname vq cq (pre ++ bad :: suf)).2) := by
  constructor
  · intro root i
    have hcond : (pyTruthyStr (none : Option String) && pyTruthyInt none
        && pyTruthyInt none) = false := by simp
    simp only [singleExpIds, singleExpIdsFull, hcond, Bool.false_eq_true, if_false]
    rw [expScanPointings_fst_join]
    simp only [expScanPointing, pyTruthyStr_none, Bool.false_eq_true, if_false]
    simp only [List.mem_flatten, List.mem_map, List.mem_filter,
      expScanFilterDirs_fst_join, expScanFiles_none_fst, List.mem_filterMap,
      Option.map_eq_some']
    constructor
    · rintro ⟨l, ⟨p, ⟨hp, hdig⟩, rfl⟩, hi⟩
      rw [List.mem_flatten] at hi
      obtain ⟨l2, hl2, hi⟩ := hi
      rw [List.mem_map] at hl2
      obtain ⟨fd, hfd, rfl⟩ := hl2
      rw [List.mem_filterMap] at hi
      obtain ⟨o, ho, hmap⟩ := hi
      rw [Option.map_eq_some'] at hmap
      obtain ⟨⟨v, c⟩, hm, rfl⟩ := hmap
      exact ⟨p, hp, hdig, fd, hfd, o, ho, v, c, hm, rfl⟩
    · rintro ⟨p, hp, hdig, fd, hfd, o, ho, v, c, hm, rfl⟩
      refine ⟨_, ⟨p, ⟨hp, hdig⟩, rfl⟩, ?_⟩
      rw [List.mem_flatten]
      refine ⟨_, List.mem_map_of_mem _ hfd, ?_⟩
      rw [List.mem_filterMap]
      exact ⟨o, ho, by rw [hm]; rfl⟩
  · intro fname vq cq pre suf bad h1 h2
    induction pre with
    | nil => exact ⟨by simp [expScanFiles, h1, h2], by simp [expScanFiles, h1, h2]⟩
    | cons o pre ih =>
      obtain ⟨ih1, ih2⟩ := ih
      by_cases ho : startsWithSRC o
      · rcases hm : srcMatch? o with _ | ⟨v, c⟩
        · exact ⟨by simp [expScanFiles, ho, hm, ih1],
            by simp [expScanFiles, ho, hm, ih2]⟩
        · by_cases hk : keepQ vq cq v c = true
          · exact ⟨by simp [expScanFiles, ho, hm, hk, ih1],
              by simp [expScanFiles, ho, hm, hk, ih2]⟩
          · simp only [Bool.not_eq_true] at hk
            exact ⟨by simp [expScanFiles, ho, hm, hk, ih1],
              by simp [expScanFiles, ho, hm, hk, ih2]⟩
      · simp only [Bool.not_eq_true] at ho
        exact ⟨by simp [expScanFiles, ho, ih1], by simp [expScanFiles, ho, ih2]⟩

/-- Witness for C4 at a concrete repository: the spec's concrete scenario
(pointing `0000123`, filter `HSC-I`, file `SRC-0001234-007.fits`) plus one
malformed `SRC-` file that is skipped with a diagnostic. -/
theorem singleExpIds_exact_scan_witness :
    (⟨"HSC-I", 1234, 7⟩ : ExpId) ∈ singleExpIds
        ⟨[⟨"0000123", [⟨"HSC-I", ["SRC-0001234-007.fits"]⟩]⟩], []⟩ none none none
    ∧ (expScanFiles "HSC-I" none none
          ("SRC-junk" :: ["SRC-0001234-007.fits"])).1 =
        (expScanFiles "HSC-I" none none ["SRC-0001234-007.fits"]).1
    ∧ "SRC-junk" ∈ (expScanFiles "HSC-I" none none
          ("SRC-junk" :: ["SRC-0001234-007.fits"])).2 := by
  refine ⟨?_, ?_⟩
  · exact (singleExpIds_exact_scan.1
      ⟨[⟨"0000123", [⟨"HSC-I", ["SRC-0001234-007.fits"]⟩]⟩], []⟩
      ⟨"HSC-I", 1234, 7⟩).mpr
      ⟨⟨"0000123", [⟨"HSC-I", ["SRC-0001234-007.fits"]⟩]⟩, by simp, by decide,
        ⟨"HSC-I", ["SRC-0001234-007.fits"]⟩, by simp,
        "SRC-0001234-007.fits", by simp, 1234, 7, by decide, by decide⟩
  · exact singleExpIds_exact_scan.2 "HSC-I" none none []
      ["SRC-0001234-007.fits"] "SRC-junk" (by decide) (by decide)

/-! ### C3: fully bound keys and the short-circuit -/

/-- C3 counterexample: with every sub-field bound but `visit` bound to `0`,
`singleExpIds` does not return the single implied identifier: on an empty
repository it returns the empty list (it scanned the filesystem instead of
short-circuiting, because Python truthiness treats `0` as unsupplied). -/
theorem fullyBoundZero_cex :
    singleExpIds ⟨[], []⟩ (some "HSC-I") (some 0) (some 1) ≠
      [⟨"HSC-I", 0, 1⟩] := by decide

/-- C3 (amended): for every identifier key whose sub-fields are all bound to
truthy values (nonempty filter, nonzero visit and detector; nonempty filter
and patch, nonzero tract), resolution short-circuits and returns exactly the
single input identifier, for every repository content (so without touching
the filesystem). Bound falsy values (`0`, `""`) do not short-circuit. -/
theorem fullyBound_truthy_shortcircuit :
    (∀ (root : DataRoot) (f : String) (v c : Int), f ≠ "" → v ≠ 0 → c ≠ 0 →
      singleExpIds root (some f) (some v) (some c) = [⟨f, v, c⟩])
    ∧ (∀ (root : DataRoot) (f : String) (t : Int) (p : String),
      f ≠ "" → t ≠ 0 → p ≠ "" →
      deepCoaddIds root (some f) (some t) (some p) = Except.ok [⟨f, t, p⟩]) := by
  constructor
  · intro root f v c hf hv hc
    have hf' : f.isEmpty = false := by
      cases h : f.isEmpty
      · rfl
      · exact absurd ((String.isEmpty_iff f).mp h) hf
    simp [singleExpIds, singleExpIdsFull, hf', hv, hc]
  · intro root f t p hf ht hp
    have hf' : f.isEmpty = false := by
      cases h : f.isEmpty
      · rfl
      · exact absurd ((String.isEmpty_iff f).mp h) hf
    have hp' : p.isEmpty = false := by
      cases h : p.isEmpty
      · rfl
      · exact absurd ((String.isEmpty_iff p).mp h) hp
    simp [deepCoaddIds, hf', hp', ht]

/-- Witness for the amended C3 at a concrete input. -/
theorem fullyBound_truthy_shortcircuit_witness :
    singleExpIds ⟨[], []⟩ (some "HSC-I") (some 1234) (some 7) =
        [⟨"HSC-I", 1234, 7⟩]
    ∧ deepCoaddIds ⟨[], []⟩ (some "HSC-R") (some 9813) (some "1,1") =
        Except.ok [⟨"HSC-R", 9813, "1,1"⟩] :=
  ⟨fullyBound_truthy_shortcircuit.1 ⟨[], []⟩ "HSC-I" 1234 7 (by decide)
      (by decide) (by decide),
    fullyBound_truthy_shortcircuit.2 ⟨[], []⟩ "HSC-R" 9813 "1,1" (by decide)
      (by decide) (by decide)⟩

/-! ### C8: coadd resolution respects a supplied filter, unions over
filters when it is omitted, and parses leaf directories -/

theorem coaddAppendPatches_mem (f t : String) :
    ∀ (ps : List String) (l : List CoaddId), coaddAppendPatches f t ps = Except.ok l →
      ∀ i ∈ l, i.filter = f ∧ pyInt? t = some i.tract ∧ i.patch ∈ ps := by
  intro ps
  induction ps with
  | nil =>
    intro l hl i hi
    simp only [coaddAppendPatches] at hl
    cases hl
    cases hi
  | cons p rest ih =>
    intro l hl i hi
    simp only [coaddAppendPatches] at hl
    cases hn : pyInt? t with
    | none => rw [hn] at hl; cases hl
    | some n =>
      rw [hn] at hl
      cases hr : coaddAppendPatches f t rest with
      | error e => rw [hr] at hl; cases hl
      | ok l2 =>
        rw [hr] at hl
        simp only [except_bind_ok] at hl
        cases hl
        rcases List.mem_cons.mp hi with rfl | hi2
        · exact ⟨rfl, rfl, List.mem_cons_self _ _⟩
        · obtain ⟨ha, hb, hc⟩ := ih l2 hr i hi2
          rw [hn] at hb
          exact ⟨ha, hb, List.mem_cons_of_mem _ hc⟩

theorem coaddTractIds_mem (f : String) (patchq : Option String) (td : TractDir)
    (l : List CoaddId) (hl : coaddTractIds f patchq td = Except.ok l) :
    ∀ i ∈ l, i.filter = f ∧ pyInt? td.name = some i.tract := by
  intro i hi
  obtain ⟨ha, hb, _⟩ := coaddAppendPatches_mem f td.name _ l hl i hi
  exact ⟨ha, hb⟩

theorem coaddTractDirs_mem (f : String) (patchq : Option String) :
    ∀ (tds : List TractDir) (l : List CoaddId),
      coaddTractDirs f patchq tds = Except.ok l →
      ∀ i ∈ l, ∃ td ∈ tds, i.filter = f ∧ pyInt? td.name = some i.tract ∧
        (pyTruthyStr patchq = false → i.patch ∈ td.patches) := by
  intro tds
  induction tds with
  | nil =>
    intro l hl i hi
    simp only [coaddTractDirs] at hl
    cases hl
    cases hi
  | cons td rest ih =>
    intro l hl i hi
    simp only [coaddTractDirs] at hl
    cases ha : coaddTractIds f patchq td with
    | error e => rw [ha] at hl; cases hl
    | ok a =>
      rw [ha] at hl
      cases hb : coaddTractDirs f patchq rest with
      | error e => rw [hb] at hl; cases hl
      | ok b =>
        rw [hb] at hl
        simp only [except_bind_ok] at hl
        cases hl
        rcases List.mem_append.mp hi with hia | hib
        · obtain ⟨h1, h2, h3⟩ := coaddAppendPatches_mem f td.name _ a ha i hia
          refine ⟨td, List.mem_cons_self _ _, h1, h2, ?_⟩
          intro hp
          simpa [coaddTractIds, hp] using h3
        · obtain ⟨td2, htd2, hrest⟩ := ih b hb i hib
          exact ⟨td2, List.mem_cons_of_mem _ htd2, hrest⟩

theorem coaddFilterIds_mem (root : DataRoot) (tractq : Option Int)
    (patchq : Option String) (f : String) (l : List CoaddId)
    (hl : coaddFilterIds root tractq patchq f = Except.ok l) :
    ∀ i ∈ l, i.filter = f ∧ ∃ fd ∈ root.coaddResults, fd.name = f ∧
      ∃ td ∈ fd.tracts, pyInt? td.name = some i.tract ∧
        (pyTruthyStr patchq = false → i.patch ∈ td.patches) := by
  intro i hi
  simp only [coaddFilterIds] at hl
  by_cases ht : pyTruthyInt tractq = true
  · rw [ht] at hl; cases hl
  · simp only [Bool.not_eq_true] at ht
    rw [ht] at hl
    simp only [Bool.false_eq_true, if_false] at hl
    cases hf : root.coaddResults.find? (fun fd => fd.name == f) with
    | none => rw [hf] at hl; cases hl
    | some fd =>
      rw [hf] at hl
      obtain ⟨td, htd, h1, h2, h3⟩ := coaddTractDirs_mem f patchq fd.tracts l hl i hi
      have hname : fd.name = f := by
        have := List.find?_some hf
        simpa using this
      exact ⟨h1, fd, List.mem_of_find?_eq_some hf, hname, td, htd, h2, h3⟩

theorem coaddFilters_mem (root : DataRoot) (tractq : Option Int)
    (patchq : Option String) :
    ∀ (fs : List String) (l : List CoaddId),
      coaddFilters root tractq patchq fs = Except.ok l →
      ∀ i ∈ l, ∃ f ∈ fs, i.filter = f ∧ ∃ fd ∈ root.coaddResults, fd.name = f ∧
        ∃ td ∈ fd.tracts, pyInt? td.name = some i.tract ∧
          (pyTruthyStr patchq = false → i.patch ∈ td.patches) := by
  intro fs
  induction fs with
  | nil =>
    intro l hl i hi
    simp only [coaddFilters] at hl
    cases hl
    cases hi
  | cons f rest ih =>
    intro l hl i hi
    simp only [coaddFilters] at hl
    cases ha : coaddFilterIds root tractq patchq f with
    | error e => rw [ha] at hl; cases hl
    | ok a =>
      rw [ha] at hl
      cases hb : coaddFilters root tractq patchq rest with
      | error e => rw [hb] at hl; cases hl
      | ok b =>
        rw [hb] at hl
        simp only [except_bind_ok] at hl
        cases hl
        rcases List.mem_append.mp hi with hia | hib
        · obtain ⟨h1, hrest⟩ := coaddFilterIds_mem root tractq patchq f a ha i hia
          exact ⟨f, List.mem_cons_self _ _, h1, hrest⟩
        · obtain ⟨f2, hf2, hrest⟩ := ih b hb i hib
          exact ⟨f2, List.mem_cons_of_mem _ hf2, hrest⟩

theorem find?_name_self_of_nodup (fd : FilterCoaddDir) :
    ∀ (l : List FilterCoaddDir), (l.map (fun x => x.name)).Nodup → fd ∈ l →
      l.find? (fun x => x.name == fd.name) = some fd := by
  intro l
  induction l with
  | nil => intro _ h; cases h
  | cons x xs ih =>
    intro hn hmem
    rcases List.mem_cons.mp hmem with rfl | hmem2
    · exact List.find?_cons_of_pos _ (by simp)
    · have hne : ¬(x.name = fd.name) := by
        intro he
        have h1 : fd.name ∈ xs.map (fun y => y.name) := List.mem_map_of_mem _ hmem2
        rw [List.map_cons, List.nodup_cons] at hn
        exact hn.1 (he ▸ h1)
      rw [List.find?_cons_of_neg _ (by simpa using hne)]
      rw [List.map_cons, List.nodup_cons] at hn
      exact ih hn.2 hmem2

/-- C8 counterexample: with `filter` bound to the empty string (a falsy
value), `deepCoaddIds` enumerates every filter subdirectory, so the result
contains an identifier whose filter is not the supplied one. -/
theorem coaddFilter_empty_string_cex :
    deepCoaddIds ⟨[], [⟨"HSC-G", [⟨"123", ["0,0"]⟩]⟩]⟩ (some "") none none =
        Except.ok [⟨"HSC-G", 123, "0,0"⟩]
    ∧ ("HSC-G" : String) ≠ "" := by
  constructor
  · rfl
  · decide

/-- C8 (amended): for every coadd repository, `deepCoaddIds` called with a
nonempty `filter=F` returns only identifiers whose filter equals `F` (an
empty-string filter is falsy and enumerates every filter subdirectory);
omitting `filter` returns the concatenated union of the per-filter results
over all filter subdirectories (when their names are distinct and
nonempty, as directory listings give); and every identifier produced from
a scanned leaf directory has its tract parsed as an integer from the tract
directory name and its patch kept as the literal patch directory name. -/
theorem deepCoaddIds_filter_union_leaf :
    (∀ (root : DataRoot) (F : String) (tractq : Option Int)
        (patchq : Option String) (ids : List CoaddId), F ≠ "" →
        deepCoaddIds root (some F) tractq patchq = Except.ok ids →
        ∀ i ∈ ids, i.filter = F)
    ∧ (∀ (root : DataRoot) (L : FilterCoaddDir → List CoaddId),
        (root.coaddResults.map (fun x => x.name)).Nodup →
        (∀ fd ∈ root.coaddResults, fd.name ≠ "") →
        (∀ fd ∈ root.coaddResults,
          deepCoaddIds root (some fd.name) none none = Except.ok (L fd)) →
        deepCoaddIds root none none none =
          Except.ok ((root.coaddResults.map L).flatten))
    ∧ (∀ (root : DataRoot) (filterq : Option String) (ids : List CoaddId),
        deepCoaddIds root filterq none none = Except.ok ids →
        ∀ i ∈ ids, ∃ fd ∈ root.coaddResults, ∃ td ∈ fd.tracts,
          i.filter = fd.name ∧ pyInt? td.name = some i.tract ∧
            i.patch ∈ td.patches) := by
  refine ⟨?_, ?_, ?_⟩
  · intro root F tractq patchq ids hF hids i hi
    have hFt : pyTruthyStr (some F) = true := by
      simp only [pyTruthyStr_some, Bool.not_eq_true']
      cases h : F.isEmpty
      · rfl
      · exact absurd ((String.isEmpty_iff F).mp h) hF
    simp only [deepCoaddIds, hFt, Bool.true_and] at hids
    by_cases hsc : (pyTruthyInt tractq && pyTruthyStr patchq) = true
    · rw [hsc] at hids
      simp only [if_true] at hids
      cases hids
      rcases List.mem_cons.mp hi with rfl | h
      · rfl
      · cases h
    · simp only [Bool.not_eq_true] at hsc
      rw [hsc] at hids
      simp only [Bool.false_eq_true, if_false] at hids
      obtain ⟨f, hf, h1, _⟩ := coaddFilters_mem root tractq patchq _ ids hids i hi
      rcases List.mem_cons.mp hf with rfl | h
      · exact h1
      · cases h
  · intro root L hnodup hne hper
    have hcond : (pyTruthyStr (none : Option String) && pyTruthyInt none
        && pyTruthyStr none) = false := by simp
    simp only [deepCoaddIds, hcond, Bool.false_eq_true, if_false,
      pyTruthyStr_none]
    have key : ∀ (fds : List FilterCoaddDir), (∀ fd ∈ fds, fd ∈ root.coaddResults) →
        coaddFilters root none none (fds.map (fun x => x.name)) =
          Except.ok ((fds.map L).flatten) := by
      intro fds
      induction fds with
      | nil => intro _; rfl
      | cons fd rest ih =>
        intro hsub
        have hfd : fd ∈ root.coaddResults := hsub fd (List.mem_cons_self _ _)
        have hname : fd.name ≠ "" := hne fd hfd
        have hnt : pyTruthyStr (some fd.name) = true := by
          simp only [pyTruthyStr_some, Bool.not_eq_true']
          cases h : fd.name.isEmpty
          · rfl
          · exact absurd ((String.isEmpty_iff fd.name).mp h) hname
        have hthis := hper fd hfd
        simp only [deepCoaddIds, hnt, pyTruthyInt_none, pyTruthyStr_none,
          Bool.and_false, Bool.false_and, Bool.true_and, Bool.false_eq_true,
          if_false] at hthis
        have hfind : root.coaddResults.find? (fun x => x.name == fd.name) = some fd :=
          find?_name_self_of_nodup fd root.coaddResults hnodup hfd
        simp only [coaddFilters, Option.getD_some] at hthis
        cases hA : coaddFilterIds root none none fd.name with
        | error e => rw [hA] at hthis; cases hthis
        | ok a =>
          rw [hA] at hthis
          simp only [except_bind_ok, List.append_nil] at hthis
          cases hthis
          simp only [List.map_cons, coaddFilters, hA, except_bind_ok,
            ih (fun x hx => hsub x (List.mem_cons_of_mem _ hx)), List.flatten_cons]
    exact key root.coaddResults (fun x hx => hx)
  · intro root filterq ids hids i hi
    have hcond : (pyTruthyStr filterq && pyTruthyInt none && pyTruthyStr none)
        = false := by simp
    simp only [deepCoaddIds, hcond, Bool.false_eq_true, if_false] at hids
    obtain ⟨f, _, h1, fd, hfd, hname, td, htd, h2, h3⟩ :=
      coaddFilters_mem root none none _ ids hids i hi
    exact ⟨fd, hfd, td, htd, by rw [h1, hname], h2, h3 rfl⟩

/-- Witness for the amended C8 at a concrete two-filter repository. -/
theorem deepCoaddIds_filter_union_leaf_witness :
    (∀ i ∈ [(⟨"HSC-R", 9813, "1,1"⟩ : CoaddId)], i.filter = "HSC-R")
    ∧ deepCoaddIds ⟨[], [⟨"HSC-R", [⟨"9813", ["1,1"]⟩]⟩,
          ⟨"HSC-I", [⟨"8766", ["0,0"]⟩]⟩]⟩ none none none =
        Except.ok [⟨"HSC-R", 9813, "1,1"⟩, ⟨"HSC-I", 8766, "0,0"⟩]
    ∧ (∀ i ∈ [(⟨"HSC-R", 9813, "1,1"⟩ : CoaddId)],
        ∃ fd ∈ ([⟨"HSC-R", [⟨"9813", ["1,1"]⟩]⟩] : List FilterCoaddDir),
          ∃ td ∈ fd.tracts, i.filter = fd.name ∧ pyInt? td.name = some i.tract ∧
            i.patch ∈ td.patches) := by
  refine ⟨?_, ?_, ?_⟩
  · exact deepCoaddIds_filter_union_leaf.1
      ⟨[], [⟨"HSC-R", [⟨"9813", ["1,1"]⟩]⟩]⟩ "HSC-R" none none _
      (by decide) rfl
  · have h := deepCoaddIds_filter_union_leaf.2.1
      ⟨[], [⟨"HSC-R", [⟨"9813", ["1,1"]⟩]⟩, ⟨"HSC-I", [⟨"8766", ["0,0"]⟩]⟩]⟩
      (fun fd => if fd.name = "HSC-R" then [⟨"HSC-R", 9813, "1,1"⟩]
        else [⟨"HSC-I", 8766, "0,0"⟩])
      (by decide) (by decide) ?hper
    · simpa using h
    · intro fd hfd
      rcases List.mem_cons.mp hfd with rfl | hfd2
      · rfl
      · rcases List.mem_cons.mp hfd2 with rfl | h
        · rfl
        · cases h
  · exact deepCoaddIds_filter_union_leaf.2.2
      ⟨[], [⟨"HSC-R", [⟨"9813", ["1,1"]⟩]⟩]⟩ (some "HSC-R") _ rfl

/-! ### C5: the two calibration-retrieval paths -/

/-- Concrete point-spread function used in counterexamples and witnesses. -/
def psfA : Psf := { shapeAvg := 3, shapeAt := fun _ => none }

/-- Calibration facts carried by the `deepCoadd` image in the C5
counterexample store. -/
def calA : CalibInfo := { psf := psfA, fluxMag0 := 100, fluxMag0Err := 10 }

/-- Calibration facts carried by the primary dataset in the C5
counterexample store, distinct from `calA`. -/
def calB : CalibInfo := { psf := psfA, fluxMag0 := 77, fluxMag0Err := 7 }

/-- Data id used by the C5 counterexample. -/
def idC5 : DataId := DataId.coadd ⟨"HSC-I", 9813, "1,1"⟩

/-- Store for the C5 counterexample: the companion calibration-metadata
product does not exist, the primary `deepCoadd_src` dataset carries
calibration facts `calB`, and the `deepCoadd` image carries `calA`. -/
def butlerC5 : Butler :=
  { dsExists := fun k _ => k == "deepCoadd_src"
    get := fun k _ =>
      if k == "deepCoadd_src" then some (DataElement.image calB)
      else if k == "deepCoadd" then some (DataElement.image calA)
      else none }

/-- C5 counterexample: when the companion calibration-metadata product is
absent, the code derives calibration from the dataset of kind
`dataType[:-4]` (`deepCoadd`), not from the primary dataset
(`deepCoadd_src`): at this store the code returns the `deepCoadd` facts
while the spec-modelled fallback-to-primary returns the primary facts, and
the two disagree. -/
theorem calibFallback_not_primary_cex :
    getZeroMagFlux butlerC5 "deepCoadd_src" idC5 = Except.ok calA
    ∧ getZeroMagFluxSpec butlerC5 "deepCoadd_src" idC5 = Except.ok calB
    ∧ calA.fluxMag0 ≠ calB.fluxMag0 := by
  refine ⟨rfl, rfl, by decide⟩

/-- C5 (amended): when an auxiliary column is requested, the calibration
facts are obtained by one of exactly two retrieval paths chosen by the
single runtime existence check on the companion calibration-metadata kind:
if it exists it is fetched and read as metadata, otherwise the dataset
whose kind is the requested kind with its last four characters removed
(the underlying image, e.g. `deepCoadd` for `deepCoadd_src`) is fetched
and its calibration read; whenever the store carries the same calibration
facts through both products, the two paths yield the same three facts,
whatever the existence check answers. -/
theorem calibTwoPaths_same_facts (b : Butler) (dataType ct : String)
    (id : DataId) (c : CalibInfo)
    (hct : getCalexpType dataType = Except.ok ct)
    (h1 : b.get ct id = some (DataElement.calMd c))
    (h2 : b.get (pyDropLast4 dataType) id = some (DataElement.image c)) :
    getZeroMagFlux b dataType id = Except.ok c := by
  simp only [getZeroMagFlux, hct, except_bind_ok]
  cases hex : b.dsExists ct id
  · simp only [Bool.false_eq_true, if_false, h2]
  · simp only [if_true, h1]

/-- Store for the C5 witness: both the companion metadata and the
underlying image carry the same calibration facts. -/
def butlerC5w : Butler :=
  { dsExists := fun k _ => k == "deepCoadd_calexp_md"
    get := fun k _ =>
      if k == "deepCoadd_calexp_md" then some (DataElement.calMd calA)
      else if k == "deepCoadd" then some (DataElement.image calA)
      else none }

/-- Witness for the amended C5 at a concrete coherent store. -/
theorem calibTwoPaths_same_facts_witness :
    getZeroMagFlux butlerC5w "deepCoadd_src" idC5 = Except.ok calA :=
  calibTwoPaths_same_facts butlerC5w "deepCoadd_src" "deepCoadd_calexp_md"
    idC5 calA rfl rfl rfl

/-! ### C6: values taken by the seeing column -/

theorem zip_goodSources (recs : List SrcRecord) :
    recs.zip (goodSources recs) = recs.map (fun r => (r, r.good)) := by
  induction recs with
  | nil => rfl
  | cons r rest ih =>
    simp only [goodSources] at ih ⊢
    simp [ih]

theorem processCat_eq (wz ws sp : Bool) (calib : Option CalibInfo)
    (recs : List SrcRecord) :
    processCat wz ws sp calib recs =
      (recs.filter (fun r => r.good)).map (buildRow wz ws sp calib) := by
  unfold processCat
  rw [zip_goodSources]
  simp [List.filter_map, List.map_map, Function.comp_def]

/-- C6: when `withSeeing` is requested and `seeingAtPos` is not, every
retained row's seeing column equals the single dataset-level default (the
point-spread-function shape evaluated at no particular position); when
`seeingAtPos` is requested, the row built from the i-th retained record
carries the per-position evaluation at that record's centroid, and when
that evaluation raises the dataset-level default is substituted silently
(the row is still produced, no error escapes). -/
theorem seeing_column_values :
    (∀ (wz : Bool) (c : CalibInfo) (recs : List SrcRecord) (row : OutRecord),
      row ∈ processCat wz true false (some c) recs →
      row.seeing = some c.psf.shapeAvg)
    ∧ (∀ (wz : Bool) (c : CalibInfo) (recs : List SrcRecord) (i : Nat)
        (h1 : i < (processCat wz true true (some c) recs).length)
        (h2 : i < (recs.filter (fun r => r.good)).length),
        ((processCat wz true true (some c) recs).get ⟨i, h1⟩).seeing =
          some (match c.psf.shapeAt
                (((recs.filter (fun r => r.good)).get ⟨i, h2⟩).centroid) with
              | some s => s
              | none => c.psf.shapeAvg)) := by
  constructor
  · intro wz c recs row hrow
    rw [processCat_eq] at hrow
    obtain ⟨r, _, rfl⟩ := List.mem_map.mp hrow
    simp [buildRow]
  · intro wz c recs i h1 h2
    rw [List.get_of_eq (processCat_eq wz true true (some c) recs) ⟨i, h1⟩]
    simp only [List.get_eq_getElem, List.getElem_map, buildRow, if_true,
      Option.map_some']

/-- Witness for C6: a two-row catalog whose first record's per-position
evaluation succeeds and whose second one raises. -/
theorem seeing_column_values_witness :
    (∀ row ∈ processCat true true false (some calA)
        [⟨(1, 2), 11, true⟩, ⟨(3, 4), 22, true⟩],
      row.seeing = some calA.psf.shapeAvg)
    ∧ ((processCat true true true
          (some { psf := { shapeAvg := 3,
                           shapeAt := fun p => if p = (1, 2) then some 9 else none }
                  fluxMag0 := 100, fluxMag0Err := 10 })
          [⟨(1, 2), 11, true⟩, ⟨(3, 4), 22, true⟩]).get
        ⟨0, by decide⟩).seeing = some 9 := by
  constructor
  · intro row hrow
    exact seeing_column_values.1 true calA _ row hrow
  · have h := seeing_column_values.2 true
      { psf := { shapeAvg := 3,
                 shapeAt := fun p => if p = (1, 2) then some 9 else none }
        fluxMag0 := 100, fluxMag0Err := 10 }
      [⟨(1, 2), 11, true⟩, ⟨(3, 4), 22, true⟩] 0 (by decide) (by decide)
    rw [h]
    rfl

/-! ### Error classification: only `getIds` can raise the
unsupported-data-type error -/

/-- Results that are not the unsupported-data-type `ValueError`. -/
def NotUnsup {α : Type} (r : Except PyErr α) : Prop :=
  ∀ s, r ≠ Except.error (PyErr.unsupportedType s)

theorem notUnsup_ok {α : Type} (a : α) : NotUnsup (Except.ok a) := by
  intro s h
  cases h

theorem notUnsup_bind {α β : Type} {ma : Except PyErr α} {f : α → Except PyErr β}
    (h1 : NotUnsup ma) (h2 : ∀ a, NotUnsup (f a)) : NotUnsup (ma >>= f) := by
  cases ma with
  | error e =>
    intro s hcontra
    have he : e = PyErr.unsupportedType s := by simpa using hcontra
    exact h1 s (by rw [he])
  | ok a => simpa using h2 a

theorem notUnsup_map {α β : Type} {ma : Except PyErr α} (f : α → β)
    (hma : NotUnsup ma) : NotUnsup (ma.map f) := by
  cases ma with
  | error e =>
    intro s hcontra
    have he : e = PyErr.unsupportedType s := by simpa using hcontra
    exact hma s (by rw [he])
  | ok a => exact notUnsup_ok _

theorem notUnsup_getCalexpType (dt : String) : NotUnsup (getCalexpType dt) := by
  unfold getCalexpType
  repeat' split
  all_goals intro s
  all_goals simp

theorem notUnsup_getZeroMagFlux (b : Butler) (dt : String) (id : DataId) :
    NotUnsup (getZeroMagFlux b dt id) := by
  unfold getZeroMagFlux
  apply notUnsup_bind (notUnsup_getCalexpType dt)
  intro ct
  cases hd : b.dsExists ct id
  · simp only [Bool.false_eq_true, if_false]
    cases hg : b.get (pyDropLast4 dt) id with
    | none => intro s; simp
    | some e => cases e <;> intro s <;> simp
  · simp only [if_true]
    cases hg : b.get ct id with
    | none => intro s; simp
    | some e => cases e <;> intro s <;> simp

theorem notUnsup_coaddAppendPatches (f t : String) (ps : List String) :
    NotUnsup (coaddAppendPatches f t ps) := by
  induction ps with
  | nil => exact notUnsup_ok _
  | cons p rest ih =>
    simp only [coaddAppendPatches]
    cases pyInt? t with
    | none => intro s; simp
    | some n => exact notUnsup_bind ih (fun l => notUnsup_ok _)

theorem notUnsup_coaddTractDirs (f : String) (patchq : Option String)
    (tds : List TractDir) : NotUnsup (coaddTractDirs f patchq tds) := by
  induction tds with
  | nil => exact notUnsup_ok _
  | cons td rest ih =>
    simp only [coaddTractDirs]
    exact notUnsup_bind (notUnsup_coaddAppendPatches f td.name _)
      (fun a => notUnsup_bind ih (fun l => notUnsup_ok _))

theorem notUnsup_coaddFilterIds (root : DataRoot) (tractq : Option Int)
    (patchq : Option String) (f : String) :
    NotUnsup (coaddFilterIds root tractq patchq f) := by
  unfold coaddFilterIds
  split
  · intro s; simp
  · split
    · intro s; simp
    · exact notUnsup_coaddTractDirs f patchq _

theorem notUnsup_coaddFilters (root : DataRoot) (tractq : Option Int)
    (patchq : Option String) (fs : List String) :
    NotUnsup (coaddFilters root tractq patchq fs) := by
  induction fs with
  | nil => exact notUnsup_ok _
  | cons f rest ih =>
    simp only [coaddFilters]
    exact notUnsup_bind (notUnsup_coaddFilterIds root tractq patchq f)
      (fun a => notUnsup_bind ih (fun l => notUnsup_ok _))

theorem notUnsup_deepCoaddIds (root : DataRoot) (filterq : Option String)
    (tractq : Option Int) (patchq : Option String) :
    NotUnsup (deepCoaddIds root filterq tractq patchq) := by
  unfold deepCoaddIds
  split
  · exact notUnsup_ok _
  · exact notUnsup_coaddFilters root tractq patchq _

theorem notUnsup_extendItem (a x : FetchedItem) : NotUnsup (extendItem a x) := by
  cases a <;> cases x <;> first
    | exact notUnsup_ok _
    | (intro s; simp [extendItem])

theorem notUnsup_concatGo (xs : List FetchedItem) :
    ∀ c, NotUnsup (concatGo c xs) := by
  induction xs with
  | nil => intro c; exact notUnsup_ok _
  | cons x rest ih =>
    intro c
    simp only [concatGo]
    exact notUnsup_bind (notUnsup_extendItem c x) (fun c2 => ih c2)

theorem notUnsup_concatenateCats (l : List FetchedItem) :
    NotUnsup (concatenateCats l) := by
  cases l with
  | nil => intro s; simp [concatenateCats]
  | cons c rest => exact notUnsup_concatGo rest c

theorem notUnsup_fetchLoop (b : Butler) (dt : String) (wz ws sp : Bool)
    (ids : List DataId) : NotUnsup (fetchLoop b dt wz ws sp ids) := by
  induction ids with
  | nil => exact notUnsup_ok _
  | cons id rest ih =>
    simp only [fetchLoop]
    split
    · cases hg : b.get dt id with
      | none => intro s; simp
      | some e =>
        dsimp only
        split
        · exact notUnsup_bind (notUnsup_map some (notUnsup_getZeroMagFlux b dt id))
            (fun calib => notUnsup_bind ih (fun items => notUnsup_ok _))
        · exact notUnsup_bind (notUnsup_ok none)
            (fun calib => notUnsup_bind ih (fun items => notUnsup_ok _))
    · exact ih

/-! ### C7: unrecognized dataset kinds fail fast, recognized ones never
raise that error -/

/-- C7: for every dataset kind outside the recognized set, `getIds` (and
therefore `fetchDataset`) fails immediately with the
`"Data type ... is not implemented"` `ValueError`, for every repository
and store (so before any identifier is resolved or any dataset fetched),
and the error propagates to the caller; for every kind inside the set no
such error can ever be produced, whatever the repository and store
contents. -/
theorem unsupported_kind_fail_fast :
    (∀ (root : DataRoot) (key : PartialKey) (b : Butler) (dt : String)
        (wz ws sp : Bool),
        dt ≠ "src" → dt ≠ "calexp_md" → dt ≠ "deepCoadd" →
        dt ≠ "deepCoadd_src" → dt ≠ "deepCoadd_calexp_md" →
        getIds root dt key = Except.error (PyErr.unsupportedType dt)
        ∧ fetchDataset root b dt wz ws sp key =
            Except.error (PyErr.unsupportedType dt))
    ∧ (∀ (root : DataRoot) (key : PartialKey) (b : Butler) (dt : String)
        (wz ws sp : Bool) (s : String),
        dt = "src" ∨ dt = "calexp_md" ∨ dt = "deepCoadd" ∨
          dt = "deepCoadd_src" ∨ dt = "deepCoadd_calexp_md" →
        fetchDataset root b dt wz ws sp key ≠
          Except.error (PyErr.unsupportedType s)) := by
  constructor
  · intro root key b dt wz ws sp h1 h2 h3 h4 h5
    have hids : getIds root dt key = Except.error (PyErr.unsupportedType dt) := by
      simp only [getIds, beq_eq_false_iff_ne.mpr h1, beq_eq_false_iff_ne.mpr h2,
        beq_eq_false_iff_ne.mpr h3, beq_eq_false_iff_ne.mpr h4,
        beq_eq_false_iff_ne.mpr h5, Bool.or_self, Bool.false_eq_true, if_false,
        Bool.or_false]
    exact ⟨hids, by simp only [fetchDataset, hids, except_bind_error]⟩
  · intro root key b dt wz ws sp s hdt
    have hids : NotUnsup (getIds root dt key) := by
      rcases hdt with rfl | rfl | rfl | rfl | rfl
      · exact notUnsup_ok _
      · exact notUnsup_ok _
      · exact notUnsup_map _ (notUnsup_deepCoaddIds root key.filter key.tract
          key.patch)
      · exact notUnsup_map _ (notUnsup_deepCoaddIds root key.filter key.tract
          key.patch)
      · exact notUnsup_map _ (notUnsup_deepCoaddIds root key.filter key.tract
          key.patch)
    have : NotUnsup (fetchDataset root b dt wz ws sp key) := by
      unfold fetchDataset
      refine notUnsup_bind hids (fun ids => ?_)
      refine notUnsup_bind (notUnsup_fetchLoop b dt wz ws sp ids)
        (fun dataset => ?_)
      cases dataset with
      | nil => exact notUnsup_ok _
      | cons x xs =>
        cases xs with
        | nil => exact notUnsup_ok _
        | cons y zs => exact notUnsup_map some (notUnsup_concatenateCats _)
    exact this s

/-- Witness for C7 at a concrete unsupported kind and a concrete supported
kind. -/
theorem unsupported_kind_fail_fast_witness :
    (getIds ⟨[], []⟩ "calexp" {} = Except.error (PyErr.unsupportedType "calexp")
      ∧ fetchDataset ⟨[], []⟩
          ⟨fun _ _ => false, fun _ _ => none⟩ "calexp" true true false {} =
            Except.error (PyErr.unsupportedType "calexp"))
    ∧ fetchDataset ⟨[], []⟩ ⟨fun _ _ => false, fun _ _ => none⟩
        "src" true true false {} ≠
          Except.error (PyErr.unsupportedType "src") := by
  constructor
  · exact unsupported_kind_fail_fast.1 ⟨[], []⟩ {}
      ⟨fun _ _ => false, fun _ _ => none⟩ "calexp" true true false
      (by decide) (by decide) (by decide) (by decide) (by decide)
  · exact unsupported_kind_fail_fast.2 ⟨[], []⟩ {}
      ⟨fun _ _ => false, fun _ _ => none⟩ "src" true true false "src"
      (Or.inl rfl)

/-! ### C10: with both auxiliary columns disabled, only the primary
dataset kind is consulted in the store -/

theorem fetchLoop_congr_primary (b b' : Butler) (dt : String) (sp : Bool)
    (ids : List DataId)
    (hex : ∀ id, b.dsExists dt id = b'.dsExists dt id)
    (hget : ∀ id, b.get dt id = b'.get dt id) :
    fetchLoop b dt false false sp ids = fetchLoop b' dt false false sp ids := by
  induction ids with
  | nil => rfl
  | cons id rest ih =>
    simp only [fetchLoop, hex id, hget id, Bool.or_self, Bool.false_eq_true,
      if_false, except_bind_ok, ih]

/-- C10: when neither auxiliary column is requested
(`withZeroMagFlux=False`, `withSeeing=False`), `fetchDataset` consults the
store only through the existence check and the get for the primary dataset
kind: two stores that agree on that kind (and may disagree arbitrarily
elsewhere — in particular one may hold no calibration product at all)
produce identical results. -/
theorem disabled_aux_no_calib_access (root : DataRoot) (b b' : Butler)
    (dt : String) (sp : Bool) (key : PartialKey)
    (hex : ∀ id, b.dsExists dt id = b'.dsExists dt id)
    (hget : ∀ id, b.get dt id = b'.get dt id) :
    fetchDataset root b dt false false sp key =
      fetchDataset root b' dt false false sp key := by
  unfold fetchDataset
  cases hids : getIds root dt key with
  | error e => rfl
  | ok ids =>
    simp only [except_bind_ok, fetchLoop_congr_primary b b' dt sp ids hex hget]

/-- Store for the C10 witness holding a one-row catalog for the primary
kind plus a calibration product. -/
def butlerC10 : Butler :=
  { dsExists := fun _ _ => true
    get := fun k _ =>
      if k == "src" then some (DataElement.srcCat [⟨(0, 0), 5, true⟩])
      else some (DataElement.calMd calA) }

/-- Store for the C10 witness agreeing with `butlerC10` on the `src` kind
but holding no calibration product for any identifier. -/
def butlerC10' : Butler :=
  { dsExists := fun k _ => k == "src"
    get := fun k _ =>
      if k == "src" then some (DataElement.srcCat [⟨(0, 0), 5, true⟩])
      else none }

/-- Witness for C10: the two stores agree on the primary kind only, and
`fetchDataset` with both auxiliary options off cannot tell them apart. -/
theorem disabled_aux_no_calib_access_witness :
    fetchDataset ⟨[⟨"0000123", [⟨"HSC-I", ["SRC-0001234-007.fits"]⟩]⟩], []⟩
        butlerC10 "src" false false false {} =
      fetchDataset ⟨[⟨"0000123", [⟨"HSC-I", ["SRC-0001234-007.fits"]⟩]⟩], []⟩
        butlerC10' "src" false false false {} :=
  disabled_aux_no_calib_access _ butlerC10 butlerC10' "src" false {}
    (fun _ => rfl) (fun _ => rfl)

/-! ### Shape of the fetch loop -/

theorem fetchLoop_absent (b : Butler) (dt : String) (wz ws sp : Bool) :
    ∀ ids : List DataId, (∀ id ∈ ids, b.dsExists dt id = false) →
      fetchLoop b dt wz ws sp ids = Except.ok [] := by
  intro ids
  induction ids with
  | nil => intro _; rfl
  | cons id rest ih =>
    intro h
    have h1 := h id (List.mem_cons_self _ _)
    simp only [fetchLoop, h1, Bool.false_eq_true, if_false]
    exact ih (fun x hx => h x (List.mem_cons_of_mem _ hx))

theorem fetchLoop_append_absent (b : Butler) (dt : String) (wz ws sp : Bool)
    (l : List DataId) :
    ∀ pre : List DataId, (∀ id ∈ pre, b.dsExists dt id = false) →
      fetchLoop b dt wz ws sp (pre ++ l) = fetchLoop b dt wz ws sp l := by
  intro pre
  induction pre with
  | nil => intro _; rfl
  | cons id rest ih =>
    intro h
    have h1 := h id (List.mem_cons_self _ _)
    simp only [List.cons_append, fetchLoop, h1, Bool.false_eq_true, if_false]
    exact ih (fun x hx => h x (List.mem_cons_of_mem _ hx))

theorem fetchLoop_all_src (b : Butler) (dt : String) (wz ws sp : Bool)
    (recsOf : DataId → List SrcRecord) (calOf : DataId → CalibInfo) :
    ∀ ids : List DataId, (∀ id ∈ ids, b.dsExists dt id = true) →
      (∀ id ∈ ids, b.get dt id = some (DataElement.srcCat (recsOf id))) →
      ((wz || ws) = true →
        ∀ id ∈ ids, getZeroMagFlux b dt id = Except.ok (calOf id)) →
      fetchLoop b dt wz ws sp ids = Except.ok (ids.map (fun id =>
        FetchedItem.outCat (processCat wz ws sp
          (if (wz || ws) = true then some (calOf id) else none) (recsOf id)))) := by
  intro ids
  induction ids with
  | nil => intro _ _ _; rfl
  | cons id rest ih =>
    intro hex hget hcal
    have h1 := hex id (List.mem_cons_self _ _)
    have h2 := hget id (List.mem_cons_self _ _)
    have ihr := ih (fun x hx => hex x (List.mem_cons_of_mem _ hx))
      (fun x hx => hget x (List.mem_cons_of_mem _ hx))
      (fun hw x hx => hcal hw x (List.mem_cons_of_mem _ hx))
    simp only [fetchLoop, h1, if_true, h2]
    cases hw : (wz || ws)
    · simp only [hw, Bool.false_eq_true, if_false, except_bind_ok, ihr,
        List.map_cons, processElement]
    · have h3 := hcal hw id (List.mem_cons_self _ _)
      simp only [hw, if_true, h3, except_map_ok, except_bind_ok, ihr,
        List.map_cons, processElement]

theorem concatGo_outCat {γ : Type} (g : γ → List OutRecord) :
    ∀ (l : List γ) (r : List OutRecord),
      concatGo (FetchedItem.outCat r) (l.map (fun x => FetchedItem.outCat (g x))) =
        Except.ok (FetchedItem.outCat (r ++ (l.map g).flatten)) := by
  intro l
  induction l with
  | nil => intro r; simp [concatGo]
  | cons x rest ih =>
    intro r
    simp only [List.map_cons, concatGo, extendItem, except_bind_ok]
    rw [ih (r ++ g x)]
    simp [List.append_assoc]

theorem processCat_length (wz ws sp : Bool) (calib : Option CalibInfo)
    (recs : List SrcRecord) :
    (processCat wz ws sp calib recs).length =
      (goodSources recs).count true := by
  rw [processCat_eq, List.length_map, ← List.countP_eq_length_filter]
  unfold goodSources
  induction recs with
  | nil => rfl
  | cons r rest ih =>
    cases hr : r.good <;>
      simp [List.countP_cons, List.count_cons, hr, ih]

theorem processCat_payloads (wz ws sp : Bool) (calib : Option CalibInfo)
    (recs : List SrcRecord) :
    (processCat wz ws sp calib recs).map (fun r => r.payload) =
      (recs.filter (fun r => r.good)).map (fun r => r.payload) := by
  rw [processCat_eq, List.map_map]
  rfl

theorem fetchDataset_all_src_ok (root : DataRoot) (b : Butler) (dt : String)
    (wz ws sp : Bool) (key : PartialKey) :
    ∀ (ids : List DataId) (recsOf : DataId → List SrcRecord)
      (calOf : DataId → CalibInfo),
      getIds root dt key = Except.ok ids → 1 ≤ ids.length →
      (∀ id ∈ ids, b.dsExists dt id = true) →
      (∀ id ∈ ids, b.get dt id = some (DataElement.srcCat (recsOf id))) →
      ((wz || ws) = true →
        ∀ id ∈ ids, getZeroMagFlux b dt id = Except.ok (calOf id)) →
      fetchDataset root b dt wz ws sp key =
        Except.ok (some (FetchedItem.outCat
          ((ids.map (fun id => processCat wz ws sp
            (if (wz || ws) = true then some (calOf id) else none)
            (recsOf id))).flatten))) := by
  intro ids recsOf calOf hids hlen hex hget hcal
  have hloop := fetchLoop_all_src b dt wz ws sp recsOf calOf ids hex hget hcal
  match ids, hlen with
  | [i1], _ =>
    simp only [fetchDataset, hids, except_bind_ok, hloop, List.map_cons,
      List.map_nil]
    simp
  | i1 :: i2 :: rest, _ =>
    simp only [fetchDataset, hids, except_bind_ok, hloop, List.map_cons]
    simp only [concatenateCats]
    have hcg := concatGo_outCat
      (fun id => processCat wz ws sp
        (if (wz || ws) = true then some (calOf id) else none) (recsOf id))
      (i2 :: rest)
      (processCat wz ws sp
        (if (wz || ws) = true then some (calOf i1) else none) (recsOf i1))
    simp only [List.map_cons] at hcg
    rw [hcg]
    simp [List.flatten_cons]

/-! ### C1: zero, one, or many accumulated datasets -/

/-- C1: if no resolved identifier yields data, `fetchDataset` returns
`None`; if exactly one identifier yields data (the others being reported
absent by the store), that single possibly-augmented object is returned
directly without any concatenation (in particular a non-catalog object
passes through even though concatenating it would raise); if more than one
yields data, the result is one catalog formed by extending the first
accumulated catalog with each subsequent one, in accumulation order. -/
theorem fetchDataset_zero_one_many :
    (∀ (root : DataRoot) (b : Butler) (dt : String) (wz ws sp : Bool)
        (key : PartialKey) (ids : List DataId),
        getIds root dt key = Except.ok ids →
        (∀ id ∈ ids, b.dsExists dt id = false) →
        fetchDataset root b dt wz ws sp key = Except.ok none)
    ∧ (∀ (root : DataRoot) (b : Butler) (dt : String) (wz ws sp : Bool)
        (key : PartialKey) (pre post : List DataId) (i0 : DataId)
        (e : DataElement) (c : CalibInfo),
        getIds root dt key = Except.ok (pre ++ i0 :: post) →
        (∀ id ∈ pre, b.dsExists dt id = false) →
        (∀ id ∈ post, b.dsExists dt id = false) →
        b.dsExists dt i0 = true →
        b.get dt i0 = some e →
        ((wz || ws) = true → getZeroMagFlux b dt i0 = Except.ok c) →
        fetchDataset root b dt wz ws sp key =
          Except.ok (some (processElement wz ws sp
            (if (wz || ws) = true then some c else none) e)))
    ∧ (∀ (root : DataRoot) (b : Butler) (dt : String) (wz ws sp : Bool)
        (key : PartialKey) (ids : List DataId)
        (recsOf : DataId → List SrcRecord) (calOf : DataId → CalibInfo),
        getIds root dt key = Except.ok ids → 2 ≤ ids.length →
        (∀ id ∈ ids, b.dsExists dt id = true) →
        (∀ id ∈ ids, b.get dt id = some (DataElement.srcCat (recsOf id))) →
        ((wz || ws) = true →
          ∀ id ∈ ids, getZeroMagFlux b dt id = Except.ok (calOf id)) →
        fetchDataset root b dt wz ws sp key =
          Except.ok (some (FetchedItem.outCat
            ((ids.map (fun id => processCat wz ws sp
              (if (wz || ws) = true then some (calOf id) else none)
              (recsOf id))).flatten)))) := by
  refine ⟨?_, ?_, ?_⟩
  · intro root b dt wz ws sp key ids hids habs
    simp only [fetchDataset, hids, except_bind_ok,
      fetchLoop_absent b dt wz ws sp ids habs]
  · intro root b dt wz ws sp key pre post i0 e c hids hpre hpost hex hget hcal
    have hloop : fetchLoop b dt wz ws sp (pre ++ i0 :: post) =
        Except.ok [processElement wz ws sp
          (if (wz || ws) = true then some c else none) e] := by
      rw [fetchLoop_append_absent b dt wz ws sp _ pre hpre]
      simp only [fetchLoop, hex, if_true, hget]
      cases hw : (wz || ws)
      · simp only [Bool.false_eq_true, if_false, except_bind_ok,
          fetchLoop_absent b dt wz ws sp post hpost]
      · simp only [if_true, hcal hw, except_map_ok, except_bind_ok,
          fetchLoop_absent b dt wz ws sp post hpost]
    simp only [fetchDataset, hids, except_bind_ok, hloop]
  · intro root b dt wz ws sp key ids recsOf calOf hids hlen hex hget hcal
    exact fetchDataset_all_src_ok root b dt wz ws sp key ids recsOf calOf
      hids (Nat.le_of_succ_le hlen) hex hget hcal

/-- Repository for the C1 and C2 witnesses resolving a single id. -/
def rootW1 : DataRoot :=
  ⟨[⟨"0000123", [⟨"HSC-I", ["SRC-0001234-007.fits"]⟩]⟩], []⟩

/-- Store reporting every dataset absent. -/
def butlerNone : Butler := ⟨fun _ _ => false, fun _ _ => none⟩

/-- Repository resolving three ids. -/
def rootW3 : DataRoot :=
  ⟨[⟨"0000123", [⟨"HSC-I", ["SRC-0001111-001.fits", "SRC-0002222-002.fits",
      "SRC-0003333-003.fits"]⟩]⟩], []⟩

/-- Store for the single-yield case: only the middle id exists, and it
carries a non-catalog element. -/
def butlerW3 : Butler :=
  ⟨fun _ id => id == DataId.exp ⟨"HSC-I", 2222, 2⟩,
    fun _ _ => some (DataElement.blob 42)⟩

/-- Repository resolving two ids. -/
def rootW2 : DataRoot :=
  ⟨[⟨"0000123", [⟨"HSC-I", ["SRC-0001111-001.fits",
      "SRC-0002222-002.fits"]⟩]⟩], []⟩

/-- Catalogs held by the two-id store, keyed by data id. -/
def recsW : DataId → List SrcRecord := fun id =>
  if id == DataId.exp ⟨"HSC-I", 1111, 1⟩
  then [⟨(0, 0), 5, true⟩] else [⟨(1, 1), 6, true⟩, ⟨(2, 2), 7, false⟩]

/-- Store holding a source catalog for every id of the primary kind. -/
def butlerW2 : Butler :=
  ⟨fun _ _ => true, fun _ id => some (DataElement.srcCat (recsW id))⟩

/-- Witness for C1: no id yields data; exactly one yields a non-catalog
object returned directly; two yield catalogs that are concatenated. -/
theorem fetchDataset_zero_one_many_witness :
    fetchDataset rootW1 butlerNone "src" true true false {} = Except.ok none
    ∧ fetchDataset rootW3 butlerW3 "src" false false false {} =
        Except.ok (some (FetchedItem.raw (DataElement.blob 42)))
    ∧ fetchDataset rootW2 butlerW2 "src" false false false {} =
        Except.ok (some (FetchedItem.outCat
          (([DataId.exp ⟨"HSC-I", 1111, 1⟩, DataId.exp ⟨"HSC-I", 2222, 2⟩].map
            (fun id => processCat false false false
              (if (false || false) = true then some calA else none)
              (recsW id))).flatten))) := by
  refine ⟨?_, ?_, ?_⟩
  · exact fetchDataset_zero_one_many.1 rootW1 butlerNone "src" true true false
      {} [DataId.exp ⟨"HSC-I", 1234, 7⟩] rfl (fun id _ => rfl)
  · have hpre : ∀ id ∈ [DataId.exp (⟨"HSC-I", 1111, 1⟩ : ExpId)],
        butlerW3.dsExists "src" id = false := by
      intro id hid
      rcases List.mem_cons.mp hid with rfl | h2
      · rfl
      · cases h2
    have hpost : ∀ id ∈ [DataId.exp (⟨"HSC-I", 3333, 3⟩ : ExpId)],
        butlerW3.dsExists "src" id = false := by
      intro id hid
      rcases List.mem_cons.mp hid with rfl | h2
      · rfl
      · cases h2
    exact fetchDataset_zero_one_many.2.1 rootW3 butlerW3 "src"
      false false false {} [DataId.exp ⟨"HSC-I", 1111, 1⟩]
      [DataId.exp ⟨"HSC-I", 3333, 3⟩] (DataId.exp ⟨"HSC-I", 2222, 2⟩)
      (DataElement.blob 42) calA rfl hpre hpost rfl rfl
      (fun hw => absurd hw (by decide))
  · exact fetchDataset_zero_one_many.2.2 rootW2 butlerW2 "src"
      false false false {}
      [DataId.exp ⟨"HSC-I", 1111, 1⟩, DataId.exp ⟨"HSC-I", 2222, 2⟩]
      recsW (fun _ => calA) rfl (by decide) (fun id _ => rfl)
      (fun id _ => rfl) (fun hw => absurd hw (by decide))

/-! ### C2: row counts of the assembled output tables -/

/-- C2: for every record-oriented dataset processed by `fetchDataset`, the
output table built for it has exactly as many rows as there are `true`
values in the quality predicate result for that dataset, the rows keeping
the input row order (witnessed here through the row payloads); with one or
more datasets yielding data, the returned table's row count is the sum of
the per-dataset retained row counts, in dataset-resolution order. -/
theorem fetchDataset_row_counts (root : DataRoot) (b : Butler) (dt : String)
    (wz ws sp : Bool) (key : PartialKey) (ids : List DataId)
    (recsOf : DataId → List SrcRecord) (calOf : DataId → CalibInfo)
    (hids : getIds root dt key = Except.ok ids) (hlen : 1 ≤ ids.length)
    (hex : ∀ id ∈ ids, b.dsExists dt id = true)
    (hget : ∀ id ∈ ids, b.get dt id = some (DataElement.srcCat (recsOf id)))
    (hcal : (wz || ws) = true →
      ∀ id ∈ ids, getZeroMagFlux b dt id = Except.ok (calOf id)) :
    ∃ rows : List OutRecord,
      fetchDataset root b dt wz ws sp key =
        Except.ok (some (FetchedItem.outCat rows))
      ∧ rows.length =
          (ids.map (fun id => (goodSources (recsOf id)).count true)).sum
      ∧ rows.map (fun r => r.payload) =
          (ids.map (fun id => ((recsOf id).filter (fun r => r.good)).map
            (fun r => r.payload))).flatten := by
  refine ⟨(ids.map (fun id => processCat wz ws sp
      (if (wz || ws) = true then some (calOf id) else none)
      (recsOf id))).flatten,
    fetchDataset_all_src_ok root b dt wz ws sp key ids recsOf calOf
      hids hlen hex hget hcal, ?_, ?_⟩
  · simp [List.length_flatten, List.map_map, Function.comp_def,
      processCat_length]
  · simp [List.map_flatten, List.map_map, Function.comp_def,
      processCat_payloads]

/-- Witness for C2 on a concrete two-dataset repository whose second
catalog has one row rejected by the quality predicate. -/
theorem fetchDataset_row_counts_witness :
    ∃ rows : List OutRecord,
      fetchDataset rootW2 butlerW2 "src" false false false {} =
        Except.ok (some (FetchedItem.outCat rows))
      ∧ rows.length =
          (([DataId.exp ⟨"HSC-I", 1111, 1⟩, DataId.exp ⟨"HSC-I", 2222, 2⟩]).map
            (fun id => (goodSources (recsW id)).count true)).sum
      ∧ rows.map (fun r => r.payload) =
          (([DataId.exp ⟨"HSC-I", 1111, 1⟩, DataId.exp ⟨"HSC-I", 2222, 2⟩]).map
            (fun id => ((recsW id).filter (fun r => r.good)).map
              (fun r => r.payload))).flatten :=
  fetchDataset_row_counts rootW2 butlerW2 "src" false false false {}
    [DataId.exp ⟨"HSC-I", 1111, 1⟩, DataId.exp ⟨"HSC-I", 2222, 2⟩]
    recsW (fun _ => calA) rfl (by decide) (fun id _ => rfl)
    (fun id _ => rfl) (fun hw => absurd hw (by decide))

end FsButler
